import Mathlib

/-!
Shallow embedding of `brokers/deribit-sim-broker/simbroker.go` (package
`deribit_sim_broker`, type `DiribitSimBroker`).

Conventions of the embedding:
- Go `float64` fields and arithmetic are modelled over ℚ (exact rationals);
  all the inputs used in concrete evaluations are exactly representable.
- Go's conversion `int(x)` truncates toward zero; it is modelled by `goInt`.
- Go maps are modelled as association lists with `findKey` / `setKey`
  (Go's `m[k] = v` replaces the entry if present, else adds it).
- The external market-data feed (`b.data.GetTick()`) is passed in as an
  explicit `Tick` argument, and the order-ID allocator (`util2.NextID`) as an
  explicit `id` argument.
- `*Position` pointers handed out by `getPosition` are modelled by the map
  key: callers read the entry, transform it, and write it back, which is
  observationally what the in-place mutation through the pointer does.
- `log.Fatalf` (process abort) is modelled by returning `none` from the
  function that may abort; all ordinary returns are `some`.
- A few helpers live in the `models` package of the same repository, outside
  the files available here (`Order.IsOpen`, `Position.Side`, `CalcPnl`);
  they are modelled from the spec and marked as such in their doc comments.
-/

namespace SimBroker

inductive Direction where
  | Buy
  | Sell
deriving DecidableEq, Repr

inductive OrderType where
  | Market
  | Limit
deriving DecidableEq, Repr

inductive OrderStatus where
  | New
  | PartFilled
  | Filled
  | Cancelled
  | Rejected
deriving DecidableEq, Repr

/-- `models.Order` as used by the simulated broker. -/
structure Order where
  id : Nat
  symbol : String
  price : ℚ
  amount : ℚ
  avgPrice : ℚ
  filledAmount : ℚ
  direction : Direction
  type : OrderType
  postOnly : Bool
  reduceOnly : Bool
  status : OrderStatus
deriving DecidableEq, Repr

/-- `models.Position` (fields `Symbol`, `OpenI`, `OpenPrice`, `Size`,
`AvgPrice`; the open timestamp is modelled as an integer). -/
structure Position where
  symbol : String
  openTime : ℤ
  openPrice : ℚ
  size : ℚ
  avgPrice : ℚ
deriving DecidableEq, Repr

/-- The quote snapshot returned by `data.GetTick()`. -/
structure Tick where
  timestamp : ℤ
  bid : ℚ
  ask : ℚ
  bidVolume : ℤ
  askVolume : ℤ
deriving DecidableEq, Repr

/-- `models.AccountSummary` (fields `Balance`, `Pnl`, `Equity`). -/
structure AccountSummary where
  balance : ℚ
  pnl : ℚ
  equity : ℚ
deriving DecidableEq, Repr

/-- The state of a `DiribitSimBroker` value (the `data` feed is passed as an
argument instead of stored). -/
structure Broker where
  makerFeeRate : ℚ
  takerFeeRate : ℚ
  balance : ℚ
  orders : List (Nat × Order)
  openOrders : List (Nat × Order)
  historyOrders : List (Nat × Order)
  positions : List (String × Position)
deriving DecidableEq, Repr

/-- Go's `int(x)` conversion: truncation of a float toward zero. On an exact
rational this is t-division of the numerator by the denominator. -/
def goInt (q : ℚ) : ℤ := Int.tdiv q.num q.den

/-- Lookup in a Go map modelled as an association list. -/
def findKey {α β : Type} [DecidableEq α] (k : α) : List (α × β) → Option β
  | [] => none
  | p :: t => if p.1 = k then some p.2 else findKey k t

/-- Go map assignment `m[k] = v`: replace the entry if present, else add. -/
def setKey {α β : Type} [DecidableEq α] (k : α) (v : β) : List (α × β) → List (α × β)
  | [] => [(k, v)]
  | p :: t => if p.1 = k then (k, v) :: t else p :: setKey k v t

/-- `const PositionSizeLimit = 100000`. -/
def PositionSizeLimit : ℤ := 100000

/-- Modelled from the spec: `Order.IsOpen` lives in the `models` package,
which is not among the available files. Per §4.4 orders are partitioned by
terminal status; terminal statuses are filled, cancelled and rejected, so an
order is open while its status is new or partially filled. -/
def Order.isOpen (o : Order) : Bool :=
  o.status = OrderStatus.New ∨ o.status = OrderStatus.PartFilled

/-- Modelled from the spec: `Position.Side` lives in the `models` package,
which is not among the available files. Per the data model a positive size is
long (buy side), a negative size short (sell side); a flat position has no
side, which we model as `none`. -/
def Position.side (p : Position) : Option Direction :=
  if p.size > 0 then some Direction.Buy
  else if p.size < 0 then some Direction.Sell
  else none

/-- Modelled from the spec: `CalcPnl(side, quantity, entryPrice, exitPrice)`
lives in the `models` package, which is not among the available files. Per §6
it is a pure function erring only on invalid inputs such as a non-positive
price, and per the glossary the contracts are inverse contracts (quantity in
the quote currency, PnL settled in the base currency), so the realized PnL of
a long is `qty/entry - qty/exit` and of a short the negation. -/
def calcPnl (side : Option Direction) (qty entryPrice exitPrice : ℚ) :
    Except String ℚ :=
  if entryPrice ≤ 0 ∨ exitPrice ≤ 0 then Except.error "invalid price"
  else
    match side with
    | some Direction.Buy => Except.ok (qty / entryPrice - qty / exitPrice)
    | some Direction.Sell => Except.ok (qty / exitPrice - qty / entryPrice)
    | none => Except.error "invalid side"

/-- The value component of `CalcPnl` with the error discarded, as in the
call sites `pnl, _ := CalcPnl(...)` (the Go zero value 0 on error). -/
def calcPnlVal (side : Option Direction) (qty entryPrice exitPrice : ℚ) : ℚ :=
  match calcPnl side qty entryPrice exitPrice with
  | Except.ok v => v
  | Except.error _ => 0

/-- `addBalance`: `b.balance += value`. -/
def addBalance (b : Broker) (value : ℚ) : Broker :=
  { b with balance := b.balance + value }

/-- `addPnl`: `b.balance += pnl`. -/
def addPnl (b : Broker) (pnl : ℚ) : Broker :=
  { b with balance := b.balance + pnl }

/-- The fresh zero position that `getPosition` creates for an absent symbol. -/
def newPosition (symbol : String) : Position :=
  { symbol := symbol, openTime := 0, openPrice := 0, size := 0, avgPrice := 0 }

/-- `getPosition`: return the symbol's position, lazily creating and storing
a zero position when the symbol is absent from the map. -/
def getPosition (b : Broker) (symbol : String) : Position × Broker :=
  match findKey symbol b.positions with
  | some p => (p, b)
  | none =>
      (newPosition symbol,
        { b with positions := setKey symbol (newPosition symbol) b.positions })

/-- `addPosition`: reject a direction mismatch, else recompute the
cost-weighted average price and add the signed size. The position is mutated
through a pointer in Go; here the updated position is returned alongside the
broker for the caller to write back. -/
def addPosition (b : Broker) (p : Position) (size price : ℚ) :
    Except String Unit × Position × Broker :=
  if (p.size < 0 ∧ size > 0) ∨ (p.size > 0 ∧ size < 0) then
    (Except.error "方向错误", p, b)
  else
    let positionCost : ℚ :=
      if p.size ≠ 0 ∧ p.avgPrice ≠ 0 then |p.size| / p.avgPrice else 0
    let newPositionCost := |size| / price
    let totalCost := positionCost + newPositionCost
    let totalSize := |p.size + size|
    let avgPrice := totalSize / totalCost
    (Except.ok (), { p with avgPrice := avgPrice, size := p.size + size }, b)

/-- `closePosition`: reject a flat position or a direction mismatch, else
branch on `remaining = |size| - |oldSize|` (over-close / exact close /
partial close), credit the realized PnL to the balance and update the
position. -/
def closePosition (b : Broker) (p : Position) (size price : ℚ) :
    Except String Unit × Position × Broker :=
  if p.size = 0 then (Except.error "当前无持仓", p, b)
  else if (p.size > 0 ∧ size > 0) ∨ (p.size < 0 ∧ size < 0) then
    (Except.error "方向错误", p, b)
  else
    let remaining := |size| - |p.size|
    if remaining > 0 then
      (Except.ok (), { p with avgPrice := price, size := p.size + size },
        addPnl b (calcPnlVal p.side |p.size| p.avgPrice price))
    else if remaining = 0 then
      (Except.ok (), { p with avgPrice := 0, size := 0 },
        addPnl b (calcPnlVal p.side |size| p.avgPrice price))
    else
      (Except.ok (), { p with size := p.size + size },
        addPnl b (calcPnlVal p.side |p.size| p.avgPrice price))

/-- `updatePosition`: fetch (lazily creating) the position, abort the process
via `log.Fatalf` if the pointer is nil (modelled as `none`), else dispatch on
the sign interaction to `closePosition` or `addPosition` and write the
mutated position back. The error results of the callees are discarded, as in
the source. -/
def updatePosition (b : Broker) (symbol : String) (size price : ℚ) :
    Option Broker :=
  let b₁ := (getPosition b symbol).2
  match findKey symbol b₁.positions with
  | none => none
  | some position =>
      if (position.size > 0 ∧ size < 0) ∨ (position.size < 0 ∧ size > 0) then
        let r := closePosition b₁ position size price
        some { r.2.2 with positions := setKey symbol r.2.1 r.2.2.positions }
      else
        let r := addPosition b₁ position size price
        some { r.2.2 with positions := setKey symbol r.2.1 r.2.2.positions }

/-- `matchMarketOrder`: validate the amount (contract-size multiple via the
`int` cast, position limit on the truncated sums, margin cap), then fill at
the ask (buy) or bid (sell): debit the taker fee and apply the signed
position delta. `none` is the `log.Fatalf` abort propagated from
`updatePosition`. The order value itself is never mutated by the source. -/
def matchMarketOrder (b : Broker) (tick : Tick) (order : Order) :
    Option (Except String Unit × Broker) :=
  if !order.isOpen then some (Except.ok (), b)
  else if goInt order.amount % 10 ≠ 0 then
    some (Except.error "Invalid size - not multiple of contract size ($10)", b)
  else
    let pb := getPosition b order.symbol
    let position := pb.1
    let b₁ := pb.2
    if goInt (position.size + order.amount) > PositionSizeLimit ∨
        goInt (position.size - order.amount) < -PositionSizeLimit then
      some (Except.error "Rejected, maximum size of future position is $1,000,000", b₁)
    else
      let margin := b₁.balance
      match order.direction with
      | Direction.Buy =>
          let maxAmount := margin * 100 * tick.ask
          if order.amount > maxAmount then
            some (Except.error
              ("Rejected, maximum size of future position is " ++ toString maxAmount), b₁)
          else
            let price := tick.ask
            let size := order.amount
            let fee := size / price * b₁.takerFeeRate
            let b₂ := addBalance b₁ (-fee)
            (updatePosition b₂ order.symbol size price).map
              (fun b₃ => (Except.ok (), b₃))
      | Direction.Sell =>
          let maxAmount := margin * 100 * tick.bid
          if order.amount > maxAmount then
            some (Except.error
              ("Rejected, maximum size of future position is " ++ toString maxAmount), b₁)
          else
            let price := tick.bid
            let size := order.amount
            let fee := size / price * b₁.takerFeeRate
            let b₂ := addBalance b₁ (-fee)
            (updatePosition b₂ order.symbol (-size) price).map
              (fun b₃ => (Except.ok (), b₃))

/-- `matchLimitOrder`: the direction branches only test marketability and
have empty bodies (TODO in the source); the function then unconditionally
returns the unsupported-limit-order error. -/
def matchLimitOrder (b : Broker) (tick : Tick) (order : Order) :
    Except String Unit × Broker :=
  if !order.isOpen then (Except.ok (), b)
  else (Except.error "暂不支持限价单", b)

/-- `matchOrder`: dispatch on the order type. -/
def matchOrder (b : Broker) (tick : Tick) (order : Order) :
    Option (Except String Unit × Broker) :=
  match order.type with
  | OrderType.Market => matchMarketOrder b tick order
  | OrderType.Limit => some (matchLimitOrder b tick order)

/-- `PlaceOrder`: build the order in status new, match it, and — only when
matching returned no error — file it into the open or history map and into
the all-orders map. On a matching error the function returns before any of
the three order maps is touched. The Go named result `result Order` is never
assigned in the source, so only the error and the state are modelled. -/
def PlaceOrder (b : Broker) (tick : Tick) (id : Nat) (symbol : String)
    (direction : Direction) (orderType : OrderType) (price amount : ℚ)
    (postOnly reduceOnly : Bool) : Option (Except String Unit × Broker) :=
  let order : Order :=
    { id := id, symbol := symbol, price := price, amount := amount,
      avgPrice := 0, filledAmount := 0, direction := direction,
      type := orderType, postOnly := postOnly, reduceOnly := reduceOnly,
      status := OrderStatus.New }
  match matchOrder b tick order with
  | none => none
  | some (Except.error e, b₁) => some (Except.error e, b₁)
  | some (Except.ok _, b₁) =>
      let b₂ :=
        if order.isOpen then
          { b₁ with openOrders := setKey id order b₁.openOrders }
        else
          { b₁ with historyOrders := setKey id order b₁.historyOrders }
      some (Except.ok (), { b₂ with orders := setKey id order b₂.orders })

/-- `GetOrder`: look the id up in the all-orders map (the symbol argument is
unused by the source) or return a not-found error; no state is mutated, so
the broker comes back unchanged. -/
def GetOrder (b : Broker) (symbol : String) (id : Nat) :
    Except String Order × Broker :=
  match findKey id b.orders with
  | none => (Except.error "not found", b)
  | some o => (Except.ok o, b)

/-- `GetPosition` (exported): plain map lookup or a not-found error; unlike
the private `getPosition` it does not insert anything. -/
def GetPosition (b : Broker) (symbol : String) :
    Except String Position × Broker :=
  match findKey symbol b.positions with
  | none => (Except.error "not found", b)
  | some p => (Except.ok p, b)

/-- The currency-to-symbol mapping at the top of `GetAccountSummary`
(`var symbol string` stays empty for other currencies). -/
def symbolOfCurrency (currency : String) : String :=
  if currency = "BTC" then "BTC-PERPETUAL"
  else if currency = "ETH" then "ETH-PERPETUAL"
  else ""

/-- `GetAccountSummary`: read the balance, fetch the derived symbol's
position through the lazily-inserting `getPosition`, price the position on
its side (`var price float64` stays 0 for a flat position), and report
balance, unrealized PnL and equity. -/
def GetAccountSummary (b : Broker) (tick : Tick) (currency : String) :
    AccountSummary × Broker :=
  let balance := b.balance
  let symbol := symbolOfCurrency currency
  let pb := getPosition b symbol
  let position := pb.1
  let b₁ := pb.2
  let side := position.side
  let price : ℚ :=
    match side with
    | some Direction.Buy => tick.ask
    | some Direction.Sell => tick.bid
    | none => 0
  let pnl := calcPnlVal side |position.size| position.avgPrice price
  ({ balance := balance, pnl := pnl, equity := balance + pnl }, b₁)

/-! Derived definitions, extracted from the source for stating properties. -/

/-- The realized PnL that `closePosition` credits to the balance, extracted
branch by branch from the source (0 on the defensive-error branches). -/
def closePnlOf (p : Position) (size price : ℚ) : ℚ :=
  if p.size = 0 then 0
  else if (p.size > 0 ∧ size > 0) ∨ (p.size < 0 ∧ size < 0) then 0
  else if |size| - |p.size| > 0 then calcPnlVal p.side |p.size| p.avgPrice price
  else if |size| - |p.size| = 0 then calcPnlVal p.side |size| p.avgPrice price
  else calcPnlVal p.side |p.size| p.avgPrice price

/-- The realized PnL that `updatePosition` credits: `closePosition`'s PnL on
an opposite-signed delta, 0 on the `addPosition` path. -/
def updatePnlOf (p : Position) (size price : ℚ) : ℚ :=
  if (p.size > 0 ∧ size < 0) ∨ (p.size < 0 ∧ size > 0) then
    closePnlOf p size price
  else 0

/-- The execution price of a market order: the ask for a buy, the bid for a
sell (lines 160 and 178 of the source). -/
def execPrice (tick : Tick) (d : Direction) : ℚ :=
  match d with
  | Direction.Buy => tick.ask
  | Direction.Sell => tick.bid

/-- The signed position delta of a market fill: `+amount` for a buy,
`-amount` for a sell (lines 170 and 188 of the source). -/
def signedSize (d : Direction) (amount : ℚ) : ℚ :=
  match d with
  | Direction.Buy => amount
  | Direction.Sell => -amount

/-! Concrete instances used in the closed evaluation theorems. -/

/-- A quote with bid 99 and ask 100. -/
def tick0 : Tick := ⟨0, 99, 100, 0, 0⟩

/-- A fresh broker with balance 1 and zero fee rates. -/
def broker0 : Broker := ⟨0, 0, 1, [], [], [], []⟩

/-- The order that `PlaceOrder` builds for a market buy of 10.5. -/
def order45 : Order :=
  ⟨1, "S", 0, 21/2, 0, 0, Direction.Buy, OrderType.Market, false, false,
    OrderStatus.New⟩

/-- A fresh broker with balance 20 and zero fee rates. -/
def brokerC2 : Broker := ⟨0, 0, 20, [], [], [], []⟩

/-- A quote with bid 100 and ask 101. -/
def tickC2 : Tick := ⟨0, 100, 101, 0, 0⟩

/-- The order that `PlaceOrder` builds for a market buy of 100000.5. -/
def orderC2 : Order :=
  ⟨1, "S", 0, 200001/2, 0, 0, Direction.Buy, OrderType.Market, false, false,
    OrderStatus.New⟩

/-- A long position of 500 contracts with average entry price 100. -/
def posC1 : Position := ⟨"S", 0, 0, 500, 100⟩

/-- A fresh broker with balance 1 and taker fee rate 0.00075. -/
def brokerC7 : Broker := ⟨0, 3/4000, 1, [], [], [], []⟩

/-- A new market buy order of 1000 contracts. -/
def orderC7 : Order :=
  ⟨1, "S", 0, 1000, 0, 0, Direction.Buy, OrderType.Market, false, false,
    OrderStatus.New⟩

/-- The broker state after `brokerC7` fills `orderC7` against `tick0`:
fee 1000/100 × 0.00075 = 0.0075 debited, long 1000 at average price 100. -/
def brokerC7After : Broker :=
  ⟨0, 3/4000, 397/400, [], [], [], [("S", ⟨"S", 0, 0, 1000, 100⟩)]⟩

/-! General lemmas about the embedding. -/

theorem findKey_setKey_self {α β : Type} [DecidableEq α] (k : α) (v : β)
    (m : List (α × β)) : findKey k (setKey k v m) = some v := by
  induction m with
  | nil => simp [findKey, setKey]
  | cons p t ih =>
      by_cases h : p.1 = k <;> simp [findKey, setKey, h, ih]

theorem findKey_setKey_ne {α β : Type} [DecidableEq α] {k k' : α} (v : β)
    (m : List (α × β)) (h : k' ≠ k) :
    findKey k' (setKey k v m) = findKey k' m := by
  induction m with
  | nil => simp [setKey, findKey, Ne.symm h]
  | cons p t ih =>
      by_cases hp : p.1 = k
      · simp [setKey, findKey, hp, h, Ne.symm h]
      · simp [setKey, findKey, hp, h, Ne.symm h, ih]

theorem getPosition_find (b : Broker) (symbol : String) :
    findKey symbol (getPosition b symbol).2.positions
      = some (getPosition b symbol).1 := by
  unfold getPosition
  cases h : findKey symbol b.positions with
  | none => simp [h, findKey_setKey_self]
  | some p => simp [h]

theorem getPosition_balance (b : Broker) (symbol : String) :
    (getPosition b symbol).2.balance = b.balance := by
  unfold getPosition
  cases h : findKey symbol b.positions <;> simp [h]

theorem getPosition_takerFeeRate (b : Broker) (symbol : String) :
    (getPosition b symbol).2.takerFeeRate = b.takerFeeRate := by
  unfold getPosition
  cases h : findKey symbol b.positions <;> simp [h]

theorem getPosition_orders (b : Broker) (symbol : String) :
    (getPosition b symbol).2.orders = b.orders := by
  unfold getPosition
  cases h : findKey symbol b.positions <;> simp [h]

theorem addPosition_broker (b : Broker) (p : Position) (size price : ℚ) :
    (addPosition b p size price).2.2 = b := by
  unfold addPosition
  dsimp only
  split_ifs <;> rfl

theorem closePosition_orders (b : Broker) (p : Position) (size price : ℚ) :
    (closePosition b p size price).2.2.orders = b.orders := by
  unfold closePosition
  dsimp only
  split_ifs <;> rfl

theorem closePosition_balance (b : Broker) (p : Position) (size price : ℚ) :
    (closePosition b p size price).2.2.balance
      = b.balance + closePnlOf p size price := by
  unfold closePosition closePnlOf
  dsimp only
  split_ifs <;> simp [addPnl]

theorem updatePosition_balance (b : Broker) (symbol : String) (size price : ℚ)
    (b' : Broker) (h : updatePosition b symbol size price = some b') :
    b'.balance = b.balance
      + updatePnlOf (getPosition b symbol).1 size price := by
  unfold updatePosition at h
  dsimp only at h
  rw [getPosition_find] at h
  dsimp only at h
  split at h
  next hcond =>
    cases h
    simp [updatePnlOf, hcond, closePosition_balance, getPosition_balance]
  next hcond =>
    cases h
    simp [updatePnlOf, hcond, addPosition_broker, getPosition_balance]

theorem getPosition_of_find {b : Broker} {s : String} {p : Position}
    (h : findKey s b.positions = some p) : getPosition b s = (p, b) := by
  unfold getPosition
  rw [h]

theorem updatePosition_orders (b : Broker) (s : String) (size price : ℚ)
    (b' : Broker) (h : updatePosition b s size price = some b') :
    b'.orders = b.orders := by
  unfold updatePosition at h
  dsimp only at h
  rw [getPosition_find] at h
  dsimp only at h
  split at h
  next =>
    cases h
    simp [closePosition_orders, getPosition_orders]
  next =>
    cases h
    simp [addPosition_broker, getPosition_orders]

theorem matchMarketOrder_orders (b : Broker) (t : Tick) (o : Order)
    (r : Except String Unit) (b' : Broker)
    (h : matchMarketOrder b t o = some (r, b')) : b'.orders = b.orders := by
  unfold matchMarketOrder at h
  dsimp only at h
  split at h
  next => cases h; rfl
  next =>
    split at h
    next => cases h; rfl
    next =>
      split at h
      next => cases h; exact getPosition_orders b o.symbol
      next =>
        split at h
        next =>
          split at h
          next => cases h; exact getPosition_orders b o.symbol
          next =>
            obtain ⟨b₃, hup, hb⟩ := Option.map_eq_some'.mp h
            cases hb
            rw [updatePosition_orders _ _ _ _ _ hup]
            exact getPosition_orders b o.symbol
        next =>
          split at h
          next => cases h; exact getPosition_orders b o.symbol
          next =>
            obtain ⟨b₃, hup, hb⟩ := Option.map_eq_some'.mp h
            cases hb
            rw [updatePosition_orders _ _ _ _ _ hup]
            exact getPosition_orders b o.symbol

theorem matchOrder_orders (b : Broker) (t : Tick) (o : Order)
    (r : Except String Unit) (b' : Broker)
    (h : matchOrder b t o = some (r, b')) : b'.orders = b.orders := by
  unfold matchOrder at h
  split at h
  next => exact matchMarketOrder_orders b t o r b' h
  next =>
    unfold matchLimitOrder at h
    split at h <;> · cases h; rfl

/-! Claim theorems. -/

/-- C8: `GetOrder` on an unknown id and `GetPosition` on an unknown symbol
both return a not-found error and return the broker state unchanged. -/
theorem getOrder_getPosition_not_found (b : Broker) (symbol : String)
    (id : Nat) (ho : findKey id b.orders = none)
    (hp : findKey symbol b.positions = none) :
    GetOrder b symbol id = (Except.error "not found", b)
    ∧ GetPosition b symbol = (Except.error "not found", b) := by
  constructor
  · unfold GetOrder
    rw [ho]
  · unfold GetPosition
    rw [hp]

/-- Witness for C8 at a fresh broker, symbol "X" and id 7. -/
theorem getOrder_getPosition_not_found_witness :
    GetOrder broker0 "X" 7 = (Except.error "not found", broker0)
    ∧ GetPosition broker0 "X" = (Except.error "not found", broker0) :=
  getOrder_getPosition_not_found broker0 "X" 7 rfl rfl

/-- C9: `GetAccountSummary` for a currency whose derived symbol has no
position record inserts a fresh zero-size position for that symbol, so a
subsequent `GetPosition` succeeds with size 0. -/
theorem getAccountSummary_inserts_position (b : Broker) (tick : Tick)
    (currency : String)
    (h : findKey (symbolOfCurrency currency) b.positions = none) :
    findKey (symbolOfCurrency currency)
        ((GetAccountSummary b tick currency).2).positions
      = some (newPosition (symbolOfCurrency currency))
    ∧ GetPosition ((GetAccountSummary b tick currency).2)
        (symbolOfCurrency currency)
      = (Except.ok (newPosition (symbolOfCurrency currency)),
          (GetAccountSummary b tick currency).2)
    ∧ (newPosition (symbolOfCurrency currency)).size = 0 := by
  have hfind : findKey (symbolOfCurrency currency)
      ((GetAccountSummary b tick currency).2).positions
      = some (newPosition (symbolOfCurrency currency)) := by
    unfold GetAccountSummary
    dsimp only
    unfold getPosition
    rw [h]
    dsimp only
    exact findKey_setKey_self _ _ _
  refine ⟨hfind, ?_, rfl⟩
  unfold GetPosition
  rw [hfind]

/-- Witness for C9 at a fresh broker and currency "BTC". -/
theorem getAccountSummary_inserts_position_witness :
    findKey (symbolOfCurrency "BTC")
        ((GetAccountSummary broker0 tick0 "BTC").2).positions
      = some (newPosition (symbolOfCurrency "BTC"))
    ∧ GetPosition ((GetAccountSummary broker0 tick0 "BTC").2)
        (symbolOfCurrency "BTC")
      = (Except.ok (newPosition (symbolOfCurrency "BTC")),
          (GetAccountSummary broker0 tick0 "BTC").2)
    ∧ (newPosition (symbolOfCurrency "BTC")).size = 0 :=
  getAccountSummary_inserts_position broker0 tick0 "BTC" rfl

/-- C10: `updatePosition` never reaches the fatal missing-position branch:
`getPosition` always returns (and stores) a position for the symbol, so the
function always returns an updated state instead of aborting. -/
theorem updatePosition_never_fatal (b : Broker) (symbol : String)
    (size price : ℚ) :
    (updatePosition b symbol size price).isSome = true := by
  unfold updatePosition
  dsimp only
  rw [getPosition_find]
  dsimp only
  split <;> rfl

/-- C4 (code behavior at the failing input): a market buy of 10.5 — not an
integer multiple of 10 — is NOT rejected: Go's `int(10.5)` truncates to 10,
`10 % 10 == 0` passes the contract-size check, and the order fills, leaving
a position of size 10.5; yet 10.5 is not `10 × n` for any integer `n`. -/
theorem placeOrder_fractional_amount_accepted_eval :
    PlaceOrder broker0 tick0 1 "S" Direction.Buy OrderType.Market 0 (21/2)
        false false
      = some (Except.ok (), ⟨0, 0, 1, [(1, order45)], [(1, order45)], [],
          [("S", ⟨"S", 0, 0, 21/2, 100⟩)]⟩)
    ∧ ∀ n : ℤ, (21/2 : ℚ) ≠ 10 * n := by
  constructor
  · have h1 : goInt (21/2 : ℚ) = 10 := by norm_num [goInt]; decide
    have h2 : goInt (-(21/2) : ℚ) = -10 := by norm_num [goInt]; decide
    norm_num [PlaceOrder, matchOrder, matchMarketOrder, getPosition, findKey,
      setKey, updatePosition, addPosition, closePosition, addBalance, addPnl,
      calcPnlVal, calcPnl, Order.isOpen, Position.side, newPosition,
      PositionSizeLimit, broker0, tick0, order45, h1, h2]
  · intro n hn
    have h2 : (21 : ℚ) = 20 * (n : ℚ) := by linarith
    have h3 : (21 : ℤ) = 20 * n := by exact_mod_cast h2
    omega

/-- C2 (code behavior at the failing input): from a flat position, a market
buy of 100000.5 passes the truncated position-limit check
(`int(0 + 100000.5) = 100000 ≤ 100000`) and fills in full, leaving a
position of absolute size 100000.5 > 100000. -/
theorem placeOrder_limit_breach_eval :
    PlaceOrder brokerC2 tickC2 1 "S" Direction.Buy OrderType.Market 0
        (200001/2) false false
      = some (Except.ok (), ⟨0, 0, 20, [(1, orderC2)], [(1, orderC2)], [],
          [("S", ⟨"S", 0, 0, 200001/2, 101⟩)]⟩)
    ∧ |(200001/2 : ℚ)| > 100000 := by
  constructor
  · have h1 : goInt (200001/2 : ℚ) = 100000 := by norm_num [goInt]; decide
    have h2 : goInt (-(200001/2) : ℚ) = -100000 := by norm_num [goInt]; decide
    norm_num [PlaceOrder, matchOrder, matchMarketOrder, getPosition, findKey,
      setKey, updatePosition, addPosition, closePosition, addBalance, addPnl,
      calcPnlVal, calcPnl, Order.isOpen, Position.side, newPosition,
      PositionSizeLimit, brokerC2, tickC2, orderC2, h1, h2]
  · rw [abs_of_pos (by norm_num : (0:ℚ) < 200001/2)]
    norm_num

/-- C1 (code behavior at the failing input): partially closing 100 of a long
500 at average price 100 with exit price 110 credits the balance with the
PnL of the ENTIRE position, `CalcPnl(long, 500, 100, 110) = 5/11`, while the
PnL of the closed portion, `CalcPnl(long, 100, 100, 110) = 1/11`, differs;
the size is reduced to 400 and the average price kept, as the claim says. -/
theorem closePosition_partial_pnl_eval :
    closePosition broker0 posC1 (-100) 110
      = (Except.ok (), ⟨"S", 0, 0, 400, 100⟩, addPnl broker0 (5/11))
    ∧ calcPnlVal (some Direction.Buy) 100 100 110 = 1/11
    ∧ (5/11 : ℚ) ≠ 1/11 := by
  refine ⟨?_, by norm_num [calcPnlVal, calcPnl], by norm_num⟩
  norm_num [closePosition, calcPnlVal, calcPnl, Position.side, addPnl,
    posC1, broker0]

/-- C3 counterexample: a market order of amount 15 is rejected by matching;
`PlaceOrder` propagates the error but records nothing, so `GetOrder` on the
allocated id fails with not-found instead of succeeding. -/
theorem placeOrder_error_not_recorded_eval :
    PlaceOrder broker0 tick0 1 "S" Direction.Buy OrderType.Market 0 15
        false false
      = some (Except.error "Invalid size - not multiple of contract size ($10)",
          broker0)
    ∧ (GetOrder broker0 "S" 1).1 = Except.error "not found" := by
  constructor
  · have h1 : goInt (15 : ℚ) = 15 := by norm_num [goInt]
    norm_num [PlaceOrder, matchOrder, matchMarketOrder, Order.isOpen,
      broker0, tick0, h1]
  · rfl

/-- C3 amended: when matching returns an error, `PlaceOrder` propagates it
and does NOT record the order: the all-orders map is unchanged, and for a
fresh id a subsequent `GetOrder` returns not-found. -/
theorem placeOrder_error_propagates_no_record (b : Broker) (tick : Tick)
    (id : Nat) (symbol : String) (direction : Direction)
    (orderType : OrderType) (price amount : ℚ) (postOnly reduceOnly : Bool)
    (e : String) (b₁ : Broker)
    (h : PlaceOrder b tick id symbol direction orderType price amount
        postOnly reduceOnly = some (Except.error e, b₁)) :
    b₁.orders = b.orders
    ∧ (findKey id b.orders = none →
        (GetOrder b₁ symbol id).1 = Except.error "not found") := by
  unfold PlaceOrder at h
  dsimp only at h
  have horders : b₁.orders = b.orders := by
    split at h
    next => cases h
    next e₀ b₀ heq =>
      cases h
      exact matchOrder_orders _ _ _ _ _ heq
    next => simp at h
  refine ⟨horders, fun hnone => ?_⟩
  unfold GetOrder
  rw [horders, hnone]

/-- Witness for C3-amended: the invalid-size rejection of a market order of
amount 15 at a fresh broker. -/
theorem placeOrder_error_propagates_no_record_witness :
    broker0.orders = broker0.orders
    ∧ (findKey 1 broker0.orders = none →
        (GetOrder broker0 "S" 1).1 = Except.error "not found") :=
  placeOrder_error_propagates_no_record broker0 tick0 1 "S" Direction.Buy
    OrderType.Market 0 15 false false
    "Invalid size - not multiple of contract size ($10)" broker0
    (by
      have h1 : goInt (15 : ℚ) = 15 := by norm_num [goInt]
      norm_num [PlaceOrder, matchOrder, matchMarketOrder, Order.isOpen,
        broker0, tick0, h1])

/-- C6: an opposite-signed close whose magnitude strictly exceeds the
position's flips the position: PnL is realized on the entire prior position
(entry = old average price, exit = `price`), the average price becomes the
fill price, and the new size is `oldSize + size` — of the close's sign, with
magnitude the excess `|size| - |oldSize|`. -/
theorem closePosition_over_close (b : Broker) (p : Position) (size price : ℚ)
    (hdir : (p.size > 0 ∧ size < 0) ∨ (p.size < 0 ∧ size > 0))
    (hover : |p.size| < |size|) :
    closePosition b p size price
      = (Except.ok (), { p with avgPrice := price, size := p.size + size },
          addPnl b (calcPnlVal p.side |p.size| p.avgPrice price))
    ∧ |p.size + size| = |size| - |p.size|
    ∧ (0 < size → 0 < p.size + size) ∧ (size < 0 → p.size + size < 0) := by
  have h0 : p.size ≠ 0 := by
    rcases hdir with ⟨h1, _⟩ | ⟨h1, _⟩
    · exact ne_of_gt h1
    · exact ne_of_lt h1
  have hsame : ¬((p.size > 0 ∧ size > 0) ∨ (p.size < 0 ∧ size < 0)) := by
    rintro (⟨a1, a2⟩ | ⟨a1, a2⟩) <;>
      rcases hdir with ⟨d1, d2⟩ | ⟨d1, d2⟩ <;> linarith
  have hrem : |size| - |p.size| > 0 := sub_pos.mpr hover
  refine ⟨?_, ?_⟩
  · unfold closePosition
    dsimp only
    rw [if_neg h0, if_neg hsame, if_pos hrem]
  · rcases hdir with ⟨d1, d2⟩ | ⟨d1, d2⟩
    · have hneg : p.size + size < 0 := by
        rw [abs_of_pos d1, abs_of_neg d2] at hover
        linarith
      refine ⟨?_, fun hs => absurd hs (by linarith), fun _ => hneg⟩
      rw [abs_of_neg hneg, abs_of_pos d1, abs_of_neg d2]
      ring
    · have hpos : 0 < p.size + size := by
        rw [abs_of_neg d1, abs_of_pos d2] at hover
        linarith
      refine ⟨?_, fun _ => hpos, fun hs => absurd d2 (by linarith)⟩
      rw [abs_of_pos hpos, abs_of_neg d1, abs_of_pos d2]
      ring

/-- Witness for C6: the spec's example — long 300 at average price 100, sold
500 at 90 — becomes short 200 at average price 90, with PnL realized on the
original 300 only (`CalcPnl(long, 300, 100, 90) = -1/3`). -/
theorem closePosition_over_close_witness :
    closePosition broker0 ⟨"S", 0, 0, 300, 100⟩ (-500) 90
      = (Except.ok (), ⟨"S", 0, 0, -200, 90⟩, addPnl broker0 (-1/3))
    ∧ |(-200 : ℚ)| = |(-500 : ℚ)| - |(300 : ℚ)| := by
  have h := closePosition_over_close broker0 ⟨"S", 0, 0, 300, 100⟩ (-500) 90
    (Or.inl ⟨by norm_num, by norm_num⟩) (by norm_num)
  constructor
  · rw [h.1]
    norm_num [calcPnlVal, calcPnl, Position.side, addPnl]
  · norm_num

theorem addPosition_flat (b : Broker) (p : Position) (size price : ℚ)
    (hp : p.size = 0) (hs : 0 < size) (hpr : 0 < price) :
    addPosition b p size price
      = (Except.ok (), { p with avgPrice := price, size := size }, b) := by
  have hs0 : size ≠ 0 := ne_of_gt hs
  have hpr0 : price ≠ 0 := ne_of_gt hpr
  unfold addPosition
  dsimp only
  rw [if_neg (by simp [hp]), if_neg (by simp [hp])]
  have havg : |p.size + size| / (0 + |size| / price) = price := by
    rw [hp, zero_add, zero_add, abs_of_pos hs, div_div_eq_mul_div,
      mul_comm, mul_div_assoc, div_self hs0, mul_one]
  rw [havg, hp, zero_add]

theorem addPosition_long (b : Broker) (p : Position) (size price : ℚ)
    (hp : 0 < p.size) (ha : 0 < p.avgPrice) (hs : 0 < size)
    (hpr : 0 < price) :
    addPosition b p size price
      = (Except.ok (),
          { p with
              avgPrice := (p.size + size) / (p.size / p.avgPrice + size / price),
              size := p.size + size }, b) := by
  unfold addPosition
  dsimp only
  rw [if_neg (by rintro (⟨a1, _⟩ | ⟨_, a2⟩) <;> linarith),
    if_pos ⟨ne_of_gt hp, ne_of_gt ha⟩, abs_of_pos hp,
    abs_of_pos hs, abs_of_pos (by linarith : 0 < p.size + size)]

/-- C5: two same-direction fills of sizes S₁, S₂ at prices P₁, P₂ from a
flat position leave the cost-weighted average entry price
`(S₁+S₂) / (S₁/P₁ + S₂/P₂)`. -/
theorem addPosition_two_fills_avg (b : Broker) (p : Position)
    (S₁ P₁ S₂ P₂ : ℚ) (hp : p.size = 0) (h1 : 0 < S₁) (h2 : 0 < P₁)
    (h3 : 0 < S₂) (h4 : 0 < P₂) :
    ((addPosition (addPosition b p S₁ P₁).2.2 (addPosition b p S₁ P₁).2.1
        S₂ P₂).2.1).avgPrice
      = (S₁ + S₂) / (S₁ / P₁ + S₂ / P₂) := by
  rw [addPosition_flat b p S₁ P₁ hp h1 h2]
  dsimp only
  rw [addPosition_long b { p with avgPrice := P₁, size := S₁ } S₂ P₂ h1 h2
    h3 h4]

/-- Witness for C5: buys of 100 at 100 then 100 at 50 from flat average to
`(100+100)/(100/100+100/50) = 200/3`. -/
theorem addPosition_two_fills_avg_witness :
    ((addPosition (addPosition broker0 (newPosition "S") 100 100).2.2
        (addPosition broker0 (newPosition "S") 100 100).2.1 100 50).2.1).avgPrice
      = 200/3 := by
  have h := addPosition_two_fills_avg broker0 (newPosition "S") 100 100 100 50
    rfl (by norm_num) (by norm_num) (by norm_num) (by norm_num)
  rw [h]
  norm_num

/-- C7: a successful market fill changes the balance by exactly the taker
fee debit `amount / executionPrice × takerFeeRate` — the ask for a buy, the
bid for a sell, same formula either way — plus the realized PnL credited by
the position update. -/
theorem matchMarketOrder_fee (b : Broker) (tick : Tick) (order : Order)
    (b' : Broker) (hopen : order.isOpen = true)
    (h : matchMarketOrder b tick order = some (Except.ok (), b')) :
    b'.balance = b.balance
      - order.amount / execPrice tick order.direction * b.takerFeeRate
      + updatePnlOf (getPosition b order.symbol).1
          (signedSize order.direction order.amount)
          (execPrice tick order.direction) := by
  unfold matchMarketOrder at h
  rw [hopen] at h
  dsimp only [Bool.not_true] at h
  rw [if_neg (by simp)] at h
  split at h
  next => simp at h
  next =>
    split at h
    next => simp at h
    next =>
      cases hD : order.direction
      case Buy =>
        rw [hD] at h
        dsimp only at h
        split at h
        next => simp at h
        next =>
          obtain ⟨b₃, hup, hb⟩ := Option.map_eq_some'.mp h
          have hb' : b₃ = b' := congrArg Prod.snd hb
          subst hb'
          have hbal := updatePosition_balance _ _ _ _ _ hup
          have hfind : findKey order.symbol
              (addBalance (getPosition b order.symbol).2
                (-(order.amount / tick.ask *
                  (getPosition b order.symbol).2.takerFeeRate))).positions
              = some (getPosition b order.symbol).1 :=
            getPosition_find b order.symbol
          rw [getPosition_of_find hfind] at hbal
          rw [hbal]
          dsimp only [execPrice, signedSize, addBalance]
          rw [getPosition_balance, getPosition_takerFeeRate]
          ring
      case Sell =>
        rw [hD] at h
        dsimp only at h
        split at h
        next => simp at h
        next =>
          obtain ⟨b₃, hup, hb⟩ := Option.map_eq_some'.mp h
          have hb' : b₃ = b' := congrArg Prod.snd hb
          subst hb'
          have hbal := updatePosition_balance _ _ _ _ _ hup
          have hfind : findKey order.symbol
              (addBalance (getPosition b order.symbol).2
                (-(order.amount / tick.bid *
                  (getPosition b order.symbol).2.takerFeeRate))).positions
              = some (getPosition b order.symbol).1 :=
            getPosition_find b order.symbol
          rw [getPosition_of_find hfind] at hbal
          rw [hbal]
          dsimp only [execPrice, signedSize, addBalance]
          rw [getPosition_balance, getPosition_takerFeeRate]
          ring

/-- Witness for C7: a market buy of 1000 at ask 100 with taker fee rate
0.00075 debits the balance by 1000/100 × 0.00075 = 3/400 (and realizes no
PnL, the position being freshly opened). -/
theorem matchMarketOrder_fee_witness :
    brokerC7After.balance = brokerC7.balance
      - (1000 : ℚ) / execPrice tick0 Direction.Buy * brokerC7.takerFeeRate
      + updatePnlOf (getPosition brokerC7 "S").1
          (signedSize Direction.Buy 1000) (execPrice tick0 Direction.Buy) :=
  matchMarketOrder_fee brokerC7 tick0 orderC7 brokerC7After rfl
    (by
      have h1 : goInt (1000 : ℚ) = 1000 := by norm_num [goInt]
      have h2 : goInt (-1000 : ℚ) = -1000 := by norm_num [goInt]
      norm_num [matchMarketOrder, getPosition, findKey, setKey,
        updatePosition, addPosition, closePosition, addBalance, addPnl,
        calcPnlVal, calcPnl, Order.isOpen, Position.side, newPosition,
        PositionSizeLimit, brokerC7, tick0, orderC7, brokerC7After, h1, h2])

end SimBroker
